import Mathlib

/-!
Shallow embedding of `src/main.py` (PII_MASK): the `ContactPIIMasker` class.
The program redacts emails, phone numbers, two-line LinkedIn URLs and photos
from a PDF.  The text matching in the source is done with Python `re`
patterns; here those concrete patterns are embedded as token lists over a
small executable matching engine that follows Python `re` semantics
(leftmost search, greedy quantifiers with backtracking, word boundaries,
capture groups) for exactly the constructs these patterns use.  ASCII
inputs are assumed: the character classes model the ASCII fragment of
Python's `\w`, `\s`, `\d`.
-/

set_option maxRecDepth 100000

/-! ### Character classes (ASCII models of the Python classes) -/

/-- Python `\w` on ASCII: letters, digits, underscore. -/
def wordChar (c : Char) : Bool := c.isAlphanum || c == '_'

/-- Python `\s` on ASCII: space, tab, newline, carriage return, vertical tab, form feed. -/
def spaceChar (c : Char) : Bool :=
  c == ' ' || c == '\t' || c == '\n' || c == '\r' || c == '\x0b' || c == '\x0c'

/-- Python `\d` on ASCII. -/
def digitChar (c : Char) : Bool := c.isDigit

/-- The class `[\w._%+-]` of the email local part. -/
def emailLocalChar (c : Char) : Bool :=
  wordChar c || c == '.' || c == '_' || c == '%' || c == '+' || c == '-'

/-- The class `[\w.-]` of the email domain part. -/
def domainChar (c : Char) : Bool := wordChar c || c == '.' || c == '-'

/-- The class `[A-Za-z]`. -/
def alphaChar (c : Char) : Bool := c.isAlpha

/-- The class `[-.\s]` used between phone groups in the search pattern. -/
def phoneSep (c : Char) : Bool := c == '-' || c == '.' || spaceChar c

/-- The class `[.\s\n-]` used in the `fix_contact_formatting` phone pattern. -/
def fixSepDot (c : Char) : Bool := c == '.' || spaceChar c || c == '-'

/-- The class `[\s\n-]` used in the `fix_contact_formatting` intl-phone pattern. -/
def fixSepBar (c : Char) : Bool := spaceChar c || c == '-'

/-- The class `[A-Za-z0-9_-]` of a LinkedIn profile id. -/
def idChar (c : Char) : Bool := c.isAlphanum || c == '_' || c == '-'

/-! ### Pattern tokens

A pattern is a list of tokens.  `cls p lo hi` is a greedy character-class
repetition `p{lo,hi}` (`hi = none` means unbounded); `bnd` is `\b`;
`opt sub` is an optional non-capturing group `(?: sub )?` whose body is a
sequence of class repetitions; `grpOpen`/`grpClose` delimit a capture
group.  All constructs of the six patterns in `src/main.py` are covered. -/

/-- A class repetition inside an optional group. -/
inductive CTok where
  | cls (p : Char → Bool) (lo : Nat) (hi : Option Nat)

/-- One token of an embedded pattern. -/
inductive RTok where
  | cls (p : Char → Bool) (lo : Nat) (hi : Option Nat)
  | bnd
  | opt (sub : List CTok)
  | grpOpen (n : Nat)
  | grpClose (n : Nat)

def liftC : CTok → RTok
  | .cls p lo hi => .cls p lo hi

/-- Size of a token, used to bound the engine's fuel. -/
def tokSize : RTok → Nat
  | .opt sub => 1 + sub.length
  | _ => 1

def toksSize (ts : List RTok) : Nat := (ts.map tokSize).sum

def decOpt : Option Nat → Option Nat
  | none => none
  | some h => some (h - 1)

def wordOpt : Option Char → Bool
  | none => false
  | some c => wordChar c

/-- Result of a successful match attempt at a fixed position: the consumed
characters (in order), the remaining input and the captured groups. -/
structure MStep where
  consumed : List Char
  rest : List Char
  caps : List (Nat × List Char)

/-- The backtracking matcher.  `prevC` is the character immediately before
the current position (for `\b`), `acc` the characters consumed so far,
`opens` the start offsets of currently open capture groups and `caps` the
captures recorded so far (most recent first).  Greedy class repetition is
explored character by character, longest continuation first, exactly as
Python's backtracking does.  The fuel only bounds the recursion: every
step either consumes an input character or discharges a token, so
`s.length + toksSize ts + 1` steps always suffice (see `matchAt`). -/
def matchToksF : Nat → List RTok → Option Char → List Char → List Char →
    List (Nat × Nat) → List (Nat × List Char) → Option MStep
  | 0, _, _, _, _, _, _ => none
  | _ + 1, [], _, s, acc, _, caps => some ⟨acc, s, caps⟩
  | fuel + 1, .bnd :: ts, prevC, s, acc, opens, caps =>
      if wordOpt prevC != wordOpt s.head? then
        matchToksF fuel ts prevC s acc opens caps
      else none
  | fuel + 1, .opt sub :: ts, prevC, s, acc, opens, caps =>
      match matchToksF fuel (sub.map liftC ++ ts) prevC s acc opens caps with
      | some r => some r
      | none => matchToksF fuel ts prevC s acc opens caps
  | fuel + 1, .grpOpen n :: ts, prevC, s, acc, opens, caps =>
      matchToksF fuel ts prevC s acc ((n, acc.length) :: opens) caps
  | fuel + 1, .grpClose n :: ts, prevC, s, acc, opens, caps =>
      match opens.find? (fun e => e.1 == n) with
      | some e => matchToksF fuel ts prevC s acc opens ((n, acc.drop e.2) :: caps)
      | none => none
  | fuel + 1, .cls p lo hi :: ts, prevC, s, acc, opens, caps =>
      match hi with
      | some 0 =>
          if lo == 0 then matchToksF fuel ts prevC s acc opens caps else none
      | _ =>
          match s with
          | [] =>
              if lo == 0 then matchToksF fuel ts prevC [] acc opens caps else none
          | c :: cs =>
              if p c then
                match matchToksF fuel (.cls p (lo - 1) (decOpt hi) :: ts)
                    (some c) cs (acc ++ [c]) opens caps with
                | some r => some r
                | none =>
                    if lo == 0 then matchToksF fuel ts prevC (c :: cs) acc opens caps
                    else none
              else if lo == 0 then matchToksF fuel ts prevC s acc opens caps
              else none

/-- Attempt to match pattern `ts` at the current position of `s`
(character before the position: `prevC`). -/
def matchAt (ts : List RTok) (prevC : Option Char) (s : List Char) : Option MStep :=
  matchToksF (s.length + toksSize ts + 1) ts prevC s [] [] []

/-- Python `re.search` truthiness: does the pattern match at some position? -/
def searchFrom (ts : List RTok) : Option Char → List Char → Bool
  | prevC, [] => (matchAt ts prevC []).isSome
  | prevC, c :: cs => (matchAt ts prevC (c :: cs)).isSome || searchFrom ts (some c) cs

/-- `re.search(pattern, t)` as a Bool (the source only uses its truthiness). -/
def reSearch (ts : List RTok) (t : String) : Bool := searchFrom ts none t.data

/-- Look up a captured group (most recent capture wins, as in the engine). -/
def getCap (n : Nat) (caps : List (Nat × List Char)) : List Char :=
  match caps.find? (fun e => e.1 == n) with
  | some e => e.2
  | none => []

/-- Python `re.sub` scan: at each position try a match; on success emit the
replacement and continue after the match (all six source patterns consume
at least one character on success, so each loop iteration advances and
`s.length + 1` fuel suffices). -/
def subFromF (ts : List RTok) (rf : List (Nat × List Char) → List Char) :
    Nat → Option Char → List Char → List Char
  | 0, _, s => s
  | _ + 1, _, [] => []
  | fuel + 1, prevC, c :: cs =>
      match matchAt ts prevC (c :: cs) with
      | some r =>
          if r.consumed.isEmpty then
            rf r.caps ++ c :: subFromF ts rf fuel (some c) cs
          else
            rf r.caps ++ subFromF ts rf fuel r.consumed.getLast? r.rest
      | none => c :: subFromF ts rf fuel (some c) cs

/-- `re.sub(pattern, repl, t)`. -/
def reSub (ts : List RTok) (rf : List (Nat × List Char) → List Char) (t : String) : String :=
  String.mk (subFromF ts rf (t.data.length + 1) none t.data)

/-! ### The concrete patterns of `src/main.py` -/

/-- A literal character. -/
def chr (c : Char) : RTok := RTok.cls (fun x => x == c) 1 (some 1)

/-- A literal character, case-insensitive (`re.IGNORECASE`). -/
def chrCI (c : Char) : RTok := RTok.cls (fun x => x.toLower == c) 1 (some 1)

/-- `p?` (greedy optional single character). -/
def opt1 (p : Char → Bool) : RTok := RTok.cls p 0 (some 1)

/-- `p+`. -/
def many1 (p : Char → Bool) : RTok := RTok.cls p 1 none

/-- `p{k}`. -/
def rep (p : Char → Bool) (k : Nat) : RTok := RTok.cls p k (some k)

/-- `p{k,}`. -/
def atLeast (p : Char → Bool) (k : Nat) : RTok := RTok.cls p k none

/-- `email_re = \b[\w._%+-]+@[\w.-]+\.[A-Za-z]{2,}\b`. -/
def emailToks : List RTok :=
  [RTok.bnd, many1 emailLocalChar, chr '@', many1 domainChar, chr '.',
   atLeast alphaChar 2, RTok.bnd]

/-- `phone_re = \b(?:\+?\d{1,3}[-.\s]?)?\(?\d{3}\)?[-.\s]?\d{3}[-.\s]?\d{4}\b`. -/
def phoneToks : List RTok :=
  [RTok.bnd,
   RTok.opt [CTok.cls (fun c => c == '+') 0 (some 1),
             CTok.cls digitChar 1 (some 3),
             CTok.cls phoneSep 0 (some 1)],
   opt1 (fun c => c == '('), rep digitChar 3, opt1 (fun c => c == ')'),
   opt1 phoneSep, rep digitChar 3, opt1 phoneSep, rep digitChar 4, RTok.bnd]

/-- `linkedin_re = (?:https?://)?(?:www\.)?linkedin\.com/in/[A-Za-z0-9_-]+`,
with `re.IGNORECASE`. -/
def linkedinToks : List RTok :=
  [RTok.opt [CTok.cls (fun c => c.toLower == 'h') 1 (some 1),
             CTok.cls (fun c => c.toLower == 't') 1 (some 1),
             CTok.cls (fun c => c.toLower == 't') 1 (some 1),
             CTok.cls (fun c => c.toLower == 'p') 1 (some 1),
             CTok.cls (fun c => c.toLower == 's') 0 (some 1),
             CTok.cls (fun c => c == ':') 1 (some 1),
             CTok.cls (fun c => c == '/') 1 (some 1),
             CTok.cls (fun c => c == '/') 1 (some 1)],
   RTok.opt [CTok.cls (fun c => c.toLower == 'w') 1 (some 1),
             CTok.cls (fun c => c.toLower == 'w') 1 (some 1),
             CTok.cls (fun c => c.toLower == 'w') 1 (some 1),
             CTok.cls (fun c => c == '.') 1 (some 1)]] ++
  ("linkedin.com/in/".data.map chrCI) ++ [many1 idChar]

/-- `email_re.search` truthiness. -/
def emailMatch (t : String) : Bool := reSearch emailToks t

/-- `phone_re.search` truthiness. -/
def phoneMatch (t : String) : Bool := reSearch phoneToks t

/-- `linkedin_re.search` truthiness. -/
def linkedinMatch (t : String) : Bool := reSearch linkedinToks t

/-! ### `fix_contact_formatting` -/

/-- First substitution pattern of `fix_contact_formatting`:
`([\w._%+-]+)@([\w.-]+)[\s\n]*\.?[\s\n]*([A-Za-z]{2,})`
(the class `[\s\n]` equals `\s` since `\n` is whitespace). -/
def fixEmailToks : List RTok :=
  [RTok.grpOpen 1, many1 emailLocalChar, RTok.grpClose 1, chr '@',
   RTok.grpOpen 2, many1 domainChar, RTok.grpClose 2,
   RTok.cls spaceChar 0 none, opt1 (fun c => c == '.'), RTok.cls spaceChar 0 none,
   RTok.grpOpen 3, atLeast alphaChar 2, RTok.grpClose 3]

/-- Its replacement `\1@\2.\3`. -/
def fixEmailRepl (caps : List (Nat × List Char)) : List Char :=
  getCap 1 caps ++ '@' :: (getCap 2 caps ++ '.' :: getCap 3 caps)

/-- Second substitution pattern:
`(\(?\d{3}\)?)[.\s\n-]?(\d{3})[.\s\n-]?(\d{4})`. -/
def fixPhoneToks : List RTok :=
  [RTok.grpOpen 1, opt1 (fun c => c == '('), rep digitChar 3,
   opt1 (fun c => c == ')'), RTok.grpClose 1,
   opt1 fixSepDot, RTok.grpOpen 2, rep digitChar 3, RTok.grpClose 2,
   opt1 fixSepDot, RTok.grpOpen 3, rep digitChar 4, RTok.grpClose 3]

/-- Its replacement `\1-\2-\3`. -/
def fixPhoneRepl (caps : List (Nat × List Char)) : List Char :=
  getCap 1 caps ++ '-' :: (getCap 2 caps ++ '-' :: getCap 3 caps)

/-- Third substitution pattern:
`(\+\d{1,3})[\s\n-]?(\d{3,4})[\s\n-]?(\d{3,4})[\s\n-]?(\d{3,4})`. -/
def fixIntlToks : List RTok :=
  [RTok.grpOpen 1, chr '+', RTok.cls digitChar 1 (some 3), RTok.grpClose 1,
   opt1 fixSepBar, RTok.grpOpen 2, RTok.cls digitChar 3 (some 4), RTok.grpClose 2,
   opt1 fixSepBar, RTok.grpOpen 3, RTok.cls digitChar 3 (some 4), RTok.grpClose 3,
   opt1 fixSepBar, RTok.grpOpen 4, RTok.cls digitChar 3 (some 4), RTok.grpClose 4]

/-- Its replacement `\1-\2-\3-\4`. -/
def fixIntlRepl (caps : List (Nat × List Char)) : List Char :=
  getCap 1 caps ++ '-' ::
    (getCap 2 caps ++ '-' :: (getCap 3 caps ++ '-' :: getCap 4 caps))

/-- `fix_contact_formatting`: the three `re.sub` passes applied in source order. -/
def fix_contact_formatting (t : String) : String :=
  reSub fixIntlToks fixIntlRepl
    (reSub fixPhoneToks fixPhoneRepl
      (reSub fixEmailToks fixEmailRepl t))

/-! ### Data model

`page.get_text("dict")` yields blocks, each with lines (absent for image
blocks, modelled by an empty list), each line with spans carrying a text
and a bounding box.  `page.get_images()` with `page.get_image_rects` is
modelled as, per image entry, the list of rectangles at which that image
is placed.  The outcome of the fallible library calls is part of the
model: `textDict = none` means `page.get_text` raises, `saveOk = false`
means `doc.save` raises, and `mask` is given `none` when `fitz.open`
raises on the input. -/

/-- A rectangle in page coordinates (`span["bbox"]`, `fitz.Rect`). -/
abbrev Rect := Nat × Nat × Nat × Nat

/-- A text span: one entry of `line["spans"]`. -/
structure Span where
  text : String
  bbox : Rect
deriving DecidableEq

/-- One entry of `block["lines"]`. -/
structure Line where
  spans : List Span
deriving DecidableEq

/-- One entry of `page_dict["blocks"]`; an image block has no lines. -/
structure Block where
  lines : List Line
deriving DecidableEq

/-- A page: its image placements and the outcome of layout extraction. -/
structure Page where
  images : List (List Rect)
  textDict : Option (List Block)
deriving DecidableEq

/-- An opened document: its pages, and whether `doc.save` will succeed. -/
structure Doc where
  pages : List Page
  saveOk : Bool
deriving DecidableEq

/-- A pending redaction annotation: `page.add_redact_annot(bbox, fill)`.
Fill `(0,0,0)` is black (text), `(1,1,1)` is white (images). -/
structure RedactionRegion where
  bbox : Rect
  fill : Nat × Nat × Nat
deriving DecidableEq

/-- `txt_i = "".join(s["text"] for s in spans_i)`. -/
def lineText (l : Line) : String := String.join (l.spans.map Span.text)

/-- The black-fill region of one span: `add_redact_annot(bbox, fill=(0,0,0))`. -/
def spanRedaction (s : Span) : RedactionRegion := ⟨s.bbox, (0, 0, 0)⟩

/-- All black-fill regions of one line, in span order. -/
def lineRedactions (l : Line) : List RedactionRegion := l.spans.map spanRedaction

/-- The per-block line loop of `mask_contact_info_in_pdf` (lines 104-129 of
`src/main.py`): iterate the lines with a `skip_next` flag; a line whose
text matches the email or phone pattern marks its own spans; otherwise, if
a next line exists and the concatenated text matches the LinkedIn pattern,
the spans of both lines are marked and the next line is skipped.  Each
marked span contributes one region and one counter increment.  Returns
(regions in emission order, counter). -/
def processLines : List Line → Bool → List RedactionRegion × Nat
  | [], _ => ([], 0)
  | _ :: rest, true => processLines rest false
  | l :: rest, false =>
      if emailMatch (lineText l) || phoneMatch (lineText l) then
        let r := processLines rest false
        (lineRedactions l ++ r.1, l.spans.length + r.2)
      else
        match rest with
        | [] => ([], 0)
        | l2 :: _ =>
            if linkedinMatch (lineText l ++ lineText l2) then
              let r := processLines rest true
              ((l.spans ++ l2.spans).map spanRedaction ++ r.1,
               (l.spans ++ l2.spans).length + r.2)
            else processLines rest false

/-- One block: `skip_next` starts out `False`. -/
def processBlock (b : Block) : List RedactionRegion × Nat :=
  processLines b.lines false

/-- All blocks of a page, in order. -/
def processBlocks : List Block → List RedactionRegion × Nat
  | [] => ([], 0)
  | b :: bs =>
      let r := processBlock b
      let rs := processBlocks bs
      (r.1 ++ rs.1, r.2 + rs.2)

/-- White-fill image regions: for every image entry, for every placement
rectangle, one region (lines 95-99 of `src/main.py`). -/
def imageRegions (imgs : List (List Rect)) : List RedactionRegion :=
  (imgs.map (fun rl => rl.map (fun r => (⟨r, (1, 1, 1)⟩ : RedactionRegion)))).flatten

/-- One page of the loop body: `page.get_text("dict")` runs first (its
failure propagates), then image removal if requested, then the text scan.
Returns the page's regions (in `add_redact_annot` order) and its counter. -/
def processPage (removePhotos : Bool) (p : Page) : Option (List RedactionRegion × Nat) :=
  match p.textDict with
  | none => none
  | some blocks =>
      let imgR := if removePhotos then imageRegions p.images else []
      let txt := processBlocks blocks
      some (imgR ++ txt.1, imgR.length + txt.2)

/-- The page loop: pages processed strictly in order; a raised exception
aborts the remaining pages. -/
def processPages (removePhotos : Bool) : List Page → Option (List (List RedactionRegion × Nat))
  | [] => some []
  | p :: ps =>
      match processPage removePhotos p with
      | none => none
      | some r =>
          match processPages removePhotos ps with
          | none => none
          | some rs => some (r :: rs)

/-- The `ContactPIIMasker` constructor state that `mask_contact_info_in_pdf`
can observe: the stored `confidence_threshold` and `enable_logging` flag
(the analyzer/anonymizer engines are never consulted by the method). -/
structure ContactPIIMasker where
  confidence_threshold : ℚ
  enable_logging : Bool

/-- The observable outcome of one `mask_contact_info_in_pdf` call: the
returned value (or the exception kind), whether the document handle was
acquired, and whether `doc.close()` ran.  On success the returned triple
is (total count, report text, per-page applied regions: the output
document differs from the input exactly by those regions). -/
structure MaskOutcome where
  result : Except String (Nat × String × List (List RedactionRegion))
  opened : Bool
  handleClosed : Bool

/-- `mask_contact_info_in_pdf` (lines 67-146 of `src/main.py`): open the
document (raises `InputError` on a bad input), process the pages in order
(an extraction failure propagates, leaving the handle open), save (a save
failure propagates, leaving the handle open), close, and build the report
f-string.  Pages with a zero counter are not applied and contribute zero
to the total, which equals the plain sum since their region list is empty. -/
def maskRun (_m : ContactPIIMasker) (input : Option Doc) (removePhotos : Bool) : MaskOutcome :=
  match input with
  | none => ⟨Except.error "InputError", false, false⟩
  | some d =>
      match processPages removePhotos d.pages with
      | none => ⟨Except.error "PageExtractionError", true, false⟩
      | some per =>
          if d.saveOk then
            ⟨Except.ok ((per.map Prod.snd).sum,
              "Contact Masking Report\nTotal items redacted: " ++
                toString (per.map Prod.snd).sum ++ "\n",
              per.map Prod.fst), true, true⟩
          else ⟨Except.error "OutputWriteError", true, false⟩

/-- Count of a successful run, `none` when the call raised. -/
def resultCount (o : MaskOutcome) : Option Nat :=
  match o.result with
  | Except.ok x => some x.1
  | Except.error _ => none

/-! ### Concrete fixtures

Small concrete lines, blocks and documents used by the closed witness and
counterexample statements below. -/

def lineEmail : Line := ⟨[⟨"a@b.co", (0, 0, 3, 1)⟩]⟩

def lineBoth : Line := ⟨[⟨"a@b.co 555 123 4567", (0, 2, 40, 3)⟩]⟩

def lineIntro : Line := ⟨[⟨"Check out my profile at", (0, 10, 90, 12)⟩]⟩

def lineUrl : Line := ⟨[⟨"linkedin.com/in/johndoe", (0, 14, 90, 16)⟩]⟩

def lineUrlA : Line := ⟨[⟨"linkedin.com/in/a", (1, 1, 1, 1)⟩]⟩

def lineUrlB : Line := ⟨[⟨"linkedin.com/in/b", (2, 2, 2, 2)⟩]⟩

def lineTail : Line := ⟨[⟨"c", (3, 3, 3, 3)⟩]⟩

def lineHost : Line := ⟨[⟨"my profile: ", (4, 4, 4, 4)⟩]⟩

def lineUrlEnd : Line := ⟨[⟨"linkedin.com/in/jd", (5, 5, 5, 5)⟩]⟩

def lineUrlSolo : Line := ⟨[⟨"linkedin.com/in/solo", (9, 9, 9, 9)⟩]⟩

/-- A page whose layout extraction raises. -/
def pageBad : Page := ⟨[], none⟩

/-- A page with an email line, used to show processing does not continue
past a failing page. -/
def pageEmail : Page := ⟨[], some [⟨[lineEmail]⟩]⟩

/-! ### Helper lemmas: one-step equations for the line loop -/

/-- A skipped line is consumed without emitting anything. -/
theorem processLines_skip (l : Line) (rest : List Line) :
    processLines (l :: rest) true = processLines rest false := rfl

/-- Step equation: the current line matches the email or phone pattern. -/
theorem processLines_hit (l : Line) (rest : List Line)
    (h : (emailMatch (lineText l) || phoneMatch (lineText l)) = true) :
    processLines (l :: rest) false =
      (lineRedactions l ++ (processLines rest false).1,
       l.spans.length + (processLines rest false).2) := by
  simp [processLines, h, lineRedactions]

/-- Step equation: a final non-matching line emits nothing. -/
theorem processLines_last (l : Line)
    (h : (emailMatch (lineText l) || phoneMatch (lineText l)) = false) :
    processLines [l] false = ([], 0) := by
  simp [processLines, h]

/-- Step equation: the LinkedIn look-ahead fires on the pair `l`, `l2`. -/
theorem processLines_pair (l l2 : Line) (rest : List Line)
    (h : (emailMatch (lineText l) || phoneMatch (lineText l)) = false)
    (hk : linkedinMatch (lineText l ++ lineText l2) = true) :
    processLines (l :: l2 :: rest) false =
      ((l.spans ++ l2.spans).map spanRedaction ++ (processLines rest false).1,
       (l.spans ++ l2.spans).length + (processLines rest false).2) := by
  simp [processLines, h, hk]

/-- Step equation: no classifier fires on the current line. -/
theorem processLines_miss (l l2 : Line) (rest : List Line)
    (h : (emailMatch (lineText l) || phoneMatch (lineText l)) = false)
    (hk : linkedinMatch (lineText l ++ lineText l2) = false) :
    processLines (l :: l2 :: rest) false = processLines (l2 :: rest) false := by
  simp [processLines, h, hk]

/-- The page counter counts exactly one increment per emitted region. -/
theorem processLines_count (ls : List Line) (b : Bool) :
    (processLines ls b).2 = (processLines ls b).1.length := by
  induction ls generalizing b with
  | nil => cases b <;> simp [processLines]
  | cons l rest ih =>
      cases b with
      | true => simpa [processLines_skip] using ih false
      | false =>
          cases he : emailMatch (lineText l) || phoneMatch (lineText l) with
          | true => simp [processLines_hit l rest he, lineRedactions, ih false]
          | false =>
              cases rest with
              | nil => simp [processLines_last l he]
              | cons l2 rest2 =>
                  cases hk : linkedinMatch (lineText l ++ lineText l2) with
                  | true =>
                      have h2 := ih true
                      rw [processLines_skip] at h2
                      simp [processLines_pair l l2 rest2 he hk, h2]
                      omega
                  | false =>
                      simpa [processLines_miss l l2 rest2 he hk] using ih false

/-- A line whose text matches the email or phone pattern always gets its
full list of black regions emitted as one contiguous chunk, wherever it
sits in the block: either as the current line, or as the partner of a
preceding LinkedIn look-ahead pair. -/
theorem processLines_decomp_aux :
    ∀ (n : Nat) (pre : List Line) (l : Line) (post : List Line),
      pre.length ≤ n →
      (emailMatch (lineText l) || phoneMatch (lineText l)) = true →
      ∃ A B, (processLines (pre ++ l :: post) false).1 = A ++ lineRedactions l ++ B := by
  intro n
  induction n with
  | zero =>
      intro pre l post hlen hl
      have hpre : pre = [] := List.eq_nil_of_length_eq_zero (Nat.le_zero.mp hlen)
      subst hpre
      exact ⟨[], (processLines post false).1,
        by simp [processLines_hit l post hl]⟩
  | succ n ih =>
      intro pre l post hlen hl
      cases pre with
      | nil =>
          exact ⟨[], (processLines post false).1,
            by simp [processLines_hit l post hl]⟩
      | cons p pre1 =>
          cases hp : emailMatch (lineText p) || phoneMatch (lineText p) with
          | true =>
              obtain ⟨A, B, hAB⟩ :=
                ih pre1 l post (by simp only [List.length_cons] at hlen; omega) hl
              refine ⟨lineRedactions p ++ A, B, ?_⟩
              rw [List.cons_append, processLines_hit p _ hp]
              simp [hAB, List.append_assoc]
          | false =>
              cases pre1 with
              | nil =>
                  cases hk : linkedinMatch (lineText p ++ lineText l) with
                  | true =>
                      refine ⟨lineRedactions p, (processLines post false).1, ?_⟩
                      have hstep := processLines_pair p l post hp hk
                      simp only [List.cons_append, List.nil_append]
                      rw [hstep]
                      simp [lineRedactions, List.append_assoc]
                  | false =>
                      refine ⟨[], (processLines post false).1, ?_⟩
                      have hstep := processLines_miss p l post hp hk
                      simp only [List.cons_append, List.nil_append]
                      rw [hstep, processLines_hit l post hl]
              | cons q pre2 =>
                  cases hk : linkedinMatch (lineText p ++ lineText q) with
                  | true =>
                      obtain ⟨A, B, hAB⟩ :=
                        ih pre2 l post (by simp only [List.length_cons] at hlen; omega) hl
                      refine ⟨(p.spans ++ q.spans).map spanRedaction ++ A, B, ?_⟩
                      have hstep := processLines_pair p q (pre2 ++ l :: post) hp hk
                      simp only [List.cons_append] at hstep ⊢
                      rw [hstep]
                      simp [hAB, List.append_assoc]
                  | false =>
                      obtain ⟨A, B, hAB⟩ :=
                        ih (q :: pre2) l post
                          (by simp only [List.length_cons] at hlen ⊢; omega) hl
                      refine ⟨A, B, ?_⟩
                      have hstep := processLines_miss p q (pre2 ++ l :: post) hp hk
                      simp only [List.cons_append] at hstep hAB ⊢
                      rw [hstep]
                      exact hAB

/-- Block-level consequence of the two lemmas above: the matching line
contributes exactly one region per span and the counter counts exactly
those regions. -/
theorem block_line_decomp (b : Block) (pre post : List Line) (l : Line)
    (hb : b.lines = pre ++ l :: post)
    (hl : (emailMatch (lineText l) || phoneMatch (lineText l)) = true) :
    ∃ A B, (processBlock b).1 = A ++ lineRedactions l ++ B ∧
      (processBlock b).2 = A.length + l.spans.length + B.length := by
  obtain ⟨A, B, hAB⟩ := processLines_decomp_aux pre.length pre l post le_rfl hl
  refine ⟨A, B, by simpa [processBlock, hb] using hAB, ?_⟩
  have hc := processLines_count (pre ++ l :: post) false
  rw [processBlock, hb, hc, hAB]
  simp [lineRedactions]
  omega

/-- The number of white image regions is the total number of placement
rectangles. -/
theorem imageRegions_length (imgs : List (List Rect)) :
    (imageRegions imgs).length = (imgs.map List.length).sum := by
  induction imgs with
  | nil => simp [imageRegions]
  | cons rl rest ih =>
      simp [imageRegions] at ih ⊢
      omega

/-- The page loop distributes over list append. -/
theorem processPages_append (rp : Bool) (l1 l2 : List Page) :
    processPages rp (l1 ++ l2) =
      (processPages rp l1).bind (fun a => (processPages rp l2).map (a ++ ·)) := by
  induction l1 with
  | nil => cases h2 : processPages rp l2 <;> simp [processPages, h2]
  | cons p ps ih =>
      cases hp : processPage rp p with
      | none => simp [processPages, hp]
      | some r =>
          cases hps : processPages rp ps with
          | none =>
              have h1 : processPages rp (ps ++ l2) = none := by simp [ih, hps]
              simp [processPages, hp, hps, h1]
          | some a =>
              cases h2 : processPages rp l2 with
              | none =>
                  have h1 : processPages rp (ps ++ l2) = none := by
                    simp [ih, hps, h2]
                  simp [processPages, hp, hps, h2, h1]
              | some b =>
                  have h1 : processPages rp (ps ++ l2) = some (a ++ b) := by
                    simp [ih, hps, h2]
                  simp [processPages, hp, hps, h2, h1]

/-! ### The claims -/

/-- C1: for every line of a block, if the concatenation of its spans' text
contains an email-pattern or phone-pattern match, then every span of that
line is marked for redaction: its black-fill regions, one per span at the
span's bounding box (`lineRedactions`), appear as one contiguous chunk of
the block's emissions, and the page counter counts one increment per
emitted region, with exactly `l.spans.length` increments for this line. -/
theorem matching_line_spans_all_redacted (b : Block) (pre post : List Line) (l : Line)
    (hb : b.lines = pre ++ l :: post)
    (hl : (emailMatch (lineText l) || phoneMatch (lineText l)) = true) :
    ∃ A B, (processBlock b).1 = A ++ lineRedactions l ++ B ∧
      (processBlock b).2 = A.length + l.spans.length + B.length :=
  block_line_decomp b pre post l hb hl

/-- Witness for C1 at the concrete one-line block containing `a@b.co`. -/
theorem matching_line_spans_all_redacted_witness :
    (emailMatch (lineText lineEmail) || phoneMatch (lineText lineEmail)) = true ∧
    ∃ A B, (processBlock ⟨[lineEmail]⟩).1 = A ++ lineRedactions lineEmail ++ B ∧
      (processBlock ⟨[lineEmail]⟩).2 = A.length + lineEmail.spans.length + B.length :=
  ⟨by decide, matching_line_spans_all_redacted ⟨[lineEmail]⟩ [] [] lineEmail rfl (by decide)⟩

/-- C3: a line whose text contains both an email-like and a phone-like
substring is redacted exactly once: its chunk of black regions has exactly
one region per span, and the counter counts exactly `l.spans.length`
increments for it, never two per span. -/
theorem double_match_line_redacted_once (b : Block) (pre post : List Line) (l : Line)
    (hb : b.lines = pre ++ l :: post)
    (hE : emailMatch (lineText l) = true) (hP : phoneMatch (lineText l) = true) :
    ∃ A B, (processBlock b).1 = A ++ lineRedactions l ++ B ∧
      (processBlock b).2 = A.length + l.spans.length + B.length :=
  block_line_decomp b pre post l hb (by simp [hE, hP])

/-- Witness for C3 at a line containing both `a@b.co` and `555 123 4567`. -/
theorem double_match_line_redacted_once_witness :
    emailMatch (lineText lineBoth) = true ∧ phoneMatch (lineText lineBoth) = true ∧
    ∃ A B, (processBlock ⟨[lineBoth]⟩).1 = A ++ lineRedactions lineBoth ++ B ∧
      (processBlock ⟨[lineBoth]⟩).2 = A.length + lineBoth.spans.length + B.length :=
  ⟨by decide, by decide,
    double_match_line_redacted_once ⟨[lineBoth]⟩ [] [] lineBoth rfl (by decide) (by decide)⟩

/-- C2 counterexample: the claim quantifies over every line that matches
neither pattern and has a following line, but a line already consumed by
the preceding look-ahead is skipped, so the pair starting at it is never
formed.  In the block `[linkedin.com/in/a, linkedin.com/in/b, c]` the
middle line satisfies the claim's antecedent with respect to the last
line, yet the last line's span (bbox `(3,3,3,3)`) gets no region and no
count: only the first two lines are redacted. -/
theorem consumed_line_pair_not_tested :
    (emailMatch (lineText lineUrlB) || phoneMatch (lineText lineUrlB)) = false ∧
    linkedinMatch (lineText lineUrlB ++ lineText lineTail) = true ∧
    processBlock ⟨[lineUrlA, lineUrlB, lineTail]⟩ =
      ([⟨(1, 1, 1, 1), (0, 0, 0)⟩, ⟨(2, 2, 2, 2), (0, 0, 0)⟩], 2) ∧
    ∀ r ∈ (processBlock ⟨[lineUrlA, lineUrlB, lineTail]⟩).1, r.bbox ≠ (3, 3, 3, 3) := by
  refine ⟨by decide, by decide, by decide, by decide⟩

/-- C2 amended: every line that is reached as the current candidate (not
consumed by a prior look-ahead), matches neither the email nor the phone
pattern, and has a following line, has the concatenated pair tested; on a
LinkedIn match every span of both lines is marked, the following line is
skipped, and each span of both lines is counted exactly once. -/
theorem lookahead_pair_marked_once (l1 l2 : Line) (rest : List Line)
    (h1 : (emailMatch (lineText l1) || phoneMatch (lineText l1)) = false)
    (h2 : linkedinMatch (lineText l1 ++ lineText l2) = true) :
    processLines (l1 :: l2 :: rest) false =
      ((l1.spans ++ l2.spans).map spanRedaction ++ (processLines rest false).1,
       l1.spans.length + l2.spans.length + (processLines rest false).2) := by
  rw [processLines_pair l1 l2 rest h1 h2]
  simp [List.length_append]

/-- Witness for the amended C2 at the two-line example from the spec. -/
theorem lookahead_pair_marked_once_witness :
    (emailMatch (lineText lineIntro) || phoneMatch (lineText lineIntro)) = false ∧
    linkedinMatch (lineText lineIntro ++ lineText lineUrl) = true ∧
    processLines [lineIntro, lineUrl] false =
      ((lineIntro.spans ++ lineUrl.spans).map spanRedaction ++ (processLines [] false).1,
       lineIntro.spans.length + lineUrl.spans.length + (processLines [] false).2) :=
  ⟨by decide, by decide,
    lookahead_pair_marked_once lineIntro lineUrl [] (by decide) (by decide)⟩

/-- C10 counterexample: a LinkedIn URL on the final line of a block is
redacted when the preceding line reaches the look-ahead: the concatenated
pair contains the URL, both lines are marked.  This refutes the claim that
such a line is never tested and never redacted. -/
theorem final_line_url_redacted_by_preceding_pair :
    linkedinMatch (lineText lineUrlEnd) = true ∧
    (emailMatch (lineText lineUrlEnd) || phoneMatch (lineText lineUrlEnd)) = false ∧
    processBlock ⟨[lineHost, lineUrlEnd]⟩ =
      ([⟨(4, 4, 4, 4), (0, 0, 0)⟩, ⟨(5, 5, 5, 5), (0, 0, 0)⟩], 2) :=
  ⟨by decide, by decide, by decide⟩

/-- C10 amended: the skip flag is reset at every block boundary and the
look-ahead never crosses blocks (each block's emissions are computed from
its own lines alone, starting in the scanning state); a non-matching line
alone in a block is never tested against the LinkedIn pattern standalone
and emits nothing — it is redacted only when a preceding line of the same
block pairs with it. -/
theorem lookahead_block_confined :
    (∀ (b : Block) (bs : List Block),
        processBlocks (b :: bs) =
          ((processBlock b).1 ++ (processBlocks bs).1,
           (processBlock b).2 + (processBlocks bs).2)) ∧
    (∀ l : Line, (emailMatch (lineText l) || phoneMatch (lineText l)) = false →
        processBlock ⟨[l]⟩ = ([], 0)) := by
  refine ⟨fun b bs => rfl, fun l h => ?_⟩
  simpa [processBlock] using processLines_last l h

/-- Witness for the amended C10: a single-line block holding only a
LinkedIn URL emits nothing. -/
theorem lookahead_block_confined_witness :
    linkedinMatch (lineText lineUrlSolo) = true ∧
    processBlock ⟨[lineUrlSolo]⟩ = ([], 0) :=
  ⟨by decide, lookahead_block_confined.2 lineUrlSolo (by decide)⟩

/-- C4: with `removePhotos` on, every embedded image yields one white-fill
region per placement rectangle, each counted once, so the image
contribution to the page counter is the total number of placement
rectangles — which can exceed the number of image entries when an image is
placed more than once. -/
theorem image_placement_regions (imgs : List (List Rect)) (bs : List Block) :
    (∃ txtR txtN, processPage true ⟨imgs, some bs⟩ =
        some ((imgs.map (fun rl =>
            rl.map (fun r => (⟨r, (1, 1, 1)⟩ : RedactionRegion)))).flatten ++ txtR,
          (imgs.map List.length).sum + txtN)) ∧
    (imageRegions imgs).length = (imgs.map List.length).sum ∧
    ∃ p : Page, ∃ rs n, processPage true p = some (rs, n) ∧ p.images.length < n := by
  refine ⟨⟨(processBlocks bs).1, (processBlocks bs).2, ?_⟩, imageRegions_length imgs, ?_⟩
  · rw [← imageRegions_length]
    rfl
  · exact ⟨⟨[[(0, 0, 1, 1), (2, 2, 3, 3)]], some []⟩,
      [⟨(0, 0, 1, 1), (1, 1, 1)⟩, ⟨(2, 2, 3, 3), (1, 1, 1)⟩], 2, by decide, by decide⟩

/-- C5 counterexample: the source has no per-page exception handling, so a
single page whose layout extraction raises makes the whole call fail even
though the document itself was opened fine, and the email on the following
page is never processed. -/
theorem single_page_extraction_failure_fails_mask :
    (maskRun ⟨0, false⟩ (some ⟨[pageBad, pageEmail], true⟩) true).result =
      Except.error "PageExtractionError" ∧
    (maskRun ⟨0, false⟩ (some ⟨[pageBad, pageEmail], true⟩) true).opened = true :=
  ⟨rfl, rfl⟩

/-- C5 amended: a page whose layout extraction raises aborts `mask` (the
exception propagates, no partial tolerance); only a page that extracts to
an empty layout is skipped with zero redactions, in which case processing
continues and the count is unchanged; a failure to open the input also
fails `mask`. -/
theorem page_failure_aborts_empty_layout_skipped :
    (∀ (m : ContactPIIMasker) (rp s : Bool) (imgs : List (List Rect))
        (pre post : List Page),
        (maskRun m (some ⟨pre ++ (⟨imgs, none⟩ : Page) :: post, s⟩) rp).result =
          Except.error "PageExtractionError") ∧
    (∀ rp : Bool, processPage rp (⟨[], some []⟩ : Page) = some ([], 0)) ∧
    (∀ (m : ContactPIIMasker) (rp s : Bool) (p1 p2 : List Page),
        resultCount (maskRun m (some ⟨p1 ++ (⟨[], some []⟩ : Page) :: p2, s⟩) rp) =
          resultCount (maskRun m (some ⟨p1 ++ p2, s⟩) rp)) ∧
    (∀ (m : ContactPIIMasker) (rp : Bool),
        (maskRun m none rp).result = Except.error "InputError") := by
  have he : ∀ rp : Bool, processPage rp (⟨[], some []⟩ : Page) = some ([], 0) := by
    intro rp; cases rp <;> rfl
  refine ⟨?_, he, ?_, fun m rp => rfl⟩
  · intro m rp s imgs pre post
    have h2 : processPages rp ((⟨imgs, none⟩ : Page) :: post) = none := by
      simp [processPages, processPage]
    have h3 : processPages rp (pre ++ (⟨imgs, none⟩ : Page) :: post) = none := by
      rw [processPages_append, h2]
      cases processPages rp pre <;> simp
    simp [maskRun, h3]
  · intro m rp s p1 p2
    have h2 : processPages rp ((⟨[], some []⟩ : Page) :: p2) =
        (processPages rp p2).map (([], 0) :: ·) := by
      cases hp2 : processPages rp p2 <;> simp [processPages, he, hp2]
    have h1 := processPages_append rp p1 ((⟨[], some []⟩ : Page) :: p2)
    have h4 := processPages_append rp p1 p2
    rw [h2] at h1
    cases hp1 : processPages rp p1 with
    | none =>
        rw [hp1] at h1 h4
        simp at h1 h4
        simp [maskRun, h1, h4, resultCount]
    | some a =>
        cases hp2 : processPages rp p2 with
        | none =>
            rw [hp1, hp2] at h1 h4
            simp at h1 h4
            simp [maskRun, h1, h4, resultCount]
        | some b =>
            rw [hp1, hp2] at h1 h4
            simp at h1 h4
            cases s with
            | false => simp [maskRun, h1, h4, resultCount]
            | true =>
                simp [maskRun, h1, h4, resultCount, List.sum_append]

/-- C7 counterexample: when `doc.save` raises, the handle acquired by
`fitz.open` is never closed — there is no try/finally in the source, so
the claim that the handle is released on every exit path fails. -/
theorem save_failure_leaves_handle_open :
    (maskRun ⟨0, false⟩ (some ⟨[], false⟩) true).opened = true ∧
    (maskRun ⟨0, false⟩ (some ⟨[], false⟩) true).handleClosed = false :=
  ⟨rfl, rfl⟩

/-- C7 amended: the handle is closed exactly on the successful path —
`doc.close()` runs if and only if the call returns a result; on a
page-extraction or save failure the handle stays open (after the close
only the pure report construction remains, so a closed handle is never
reused). -/
theorem handle_closed_iff_success (m : ContactPIIMasker) (input : Option Doc) (rp : Bool) :
    (maskRun m input rp).handleClosed = true ↔
      ∃ x, (maskRun m input rp).result = Except.ok x := by
  cases input with
  | none => simp [maskRun]
  | some d =>
      cases hp : processPages rp d.pages with
      | none => simp [maskRun, hp]
      | some per =>
          by_cases hs : d.saveOk
          · simp [maskRun, hp, hs]
          · simp [maskRun, hp, hs]

/-- C6: the result of `mask` — count, report and output regions alike — is
independent of the `confidence_threshold` the masker was constructed with:
the method never reads it. -/
theorem confidence_threshold_no_effect (c1 c2 : ℚ) (lg : Bool)
    (input : Option Doc) (rp : Bool)
    (_hc1 : 0 ≤ c1) (_hc2 : c1 ≤ 1) (_hc3 : 0 ≤ c2) (_hc4 : c2 ≤ 1) :
    maskRun ⟨c1, lg⟩ input rp = maskRun ⟨c2, lg⟩ input rp := rfl

/-- Witness for C6 at thresholds 0 and 1 on a one-page document. -/
theorem confidence_threshold_no_effect_witness :
    maskRun ⟨0, false⟩ (some ⟨[pageEmail], true⟩) true =
      maskRun ⟨1, false⟩ (some ⟨[pageEmail], true⟩) true :=
  confidence_threshold_no_effect 0 1 false (some ⟨[pageEmail], true⟩) true
    (by norm_num) (by norm_num) (by norm_num) (by norm_num)

/-- C8: whenever `mask` returns, its report string is the fixed two-line
template: the title line followed by `Total items redacted: <N>` for the
returned count `N`. -/
theorem report_two_line_template (m : ContactPIIMasker) (input : Option Doc) (rp : Bool)
    (n : Nat) (r : String) (out : List (List RedactionRegion))
    (h : (maskRun m input rp).result = Except.ok (n, r, out)) :
    r = "Contact Masking Report\nTotal items redacted: " ++ toString n ++ "\n" := by
  cases input with
  | none => simp [maskRun] at h
  | some d =>
      cases hp : processPages rp d.pages with
      | none => simp [maskRun, hp] at h
      | some per =>
          by_cases hs : d.saveOk
          · simp [maskRun, hp, hs] at h
            obtain ⟨hn, hr, -⟩ := h
            rw [← hr, ← hn]
          · simp [maskRun, hp, hs] at h

/-- Witness for C8 on an empty document (count 0). -/
theorem report_two_line_template_witness :
    "Contact Masking Report\nTotal items redacted: 0\n" =
      "Contact Masking Report\nTotal items redacted: " ++ toString 0 ++ "\n" :=
  report_two_line_template ⟨0, false⟩ (some ⟨[], true⟩) true 0
    "Contact Masking Report\nTotal items redacted: 0\n" [] rfl

/-- C9 counterexample: an email whose `.tld` is fragmented by whitespace
after the dot is not rejoined to the canonical form: the first substitution
pattern's greedy domain class absorbs the dot, and the replacement inserts
a second one. -/
theorem whitespace_split_email_not_rejoined :
    fix_contact_formatting "john@example. com" = "john@example..com" ∧
    fix_contact_formatting "john@example. com" ≠ "john@example.com" :=
  ⟨by decide, by decide⟩

/-- C9 amended: `fix_contact_formatting` hyphenates whitespace-separated
phone numbers (`555 123 4567` → `555-123-4567`, `+1 555 123 4567` →
`+1-555-123-4567`) and rejoins an email whose `.tld` moved behind
whitespace with the dot intact (`john@example .com` → `john@example.com`);
but when the whitespace falls after the dot (`john@example. com`) the
rewrite produces a doubled dot rather than the canonical form. -/
theorem fix_contact_formatting_rewrites :
    fix_contact_formatting "555 123 4567" = "555-123-4567" ∧
    fix_contact_formatting "+1 555 123 4567" = "+1-555-123-4567" ∧
    fix_contact_formatting "john@example .com" = "john@example.com" ∧
    fix_contact_formatting "john@example. com" = "john@example..com" :=
  ⟨by decide, by decide, by decide, by decide⟩
